import Mathlib

/-!
Verification of the economic core of the RuPDuD143 miner/wager/faucet servers.

The JavaScript sources are embedded shallowly:

* JS numbers are modelled exactly as rationals (`ℚ`) where fractional values
  arise (gem shares, multipliers) and as integers (`ℤ`) where the code only
  ever holds integers (coins, levels, cents, timestamps in ms).
* `Math.floor(x / d)` on integers is modelled as `⌊(x : ℚ) / d⌋`
  (real division followed by floor, exactly as JS evaluates it).
* `Math.round x` (resp. `toFixed(2)`) is modelled as `round : ℚ → ℤ`
  (round half away from zero on the positive values that occur here).
* SQLite tables become lists of row structures; the `users` table becomes a
  function from account names to rows; each HTTP handler becomes a pure
  function from its inputs and the pre-state to a result and the post-state.
* The external chain-transfer call (`api.transact`) is an input of the
  handler: an `Except Unit String` that is either a transaction id or the
  exception the call would throw.  The clock (`Date.now()`, `yyyymmdd`) is
  likewise passed in as explicit `now` / `today` arguments.
-/

namespace Rupdud

/-! ## Miner-game variant (`minergame.db`): users, submits, rewards_given

Model of the first server in `unnamed/part_001` (lines 43-108):
`users(account, coins, gems, miner_level)`, `submits(account, amount, day,
timestamp)`, `rewards_given(account, day)` with primary key (account, day).
Gems are rationals because `distributeGemsForDay` adds the unrounded share
`(amount / total) * pool` to the `gems` column. -/

structure SubmitRow where
  account : String
  amount : ℤ
  day : String
  deriving DecidableEq, Repr

structure MinerUser where
  coins : ℤ
  gems : ℚ
  miner_level : ℤ
  deriving DecidableEq, Repr

structure MinerState where
  users : String → Option MinerUser
  submits : List SubmitRow
  rewardsGiven : List (String × String)

/-- Gems balance of an account (0 when the row is absent). -/
def MinerState.gemsOf (s : MinerState) (a : String) : ℚ :=
  match s.users a with
  | some u => u.gems
  | none => 0

/-- One iteration of the `for (const row of submits)` loop in
`distributeGemsForDay` (`unnamed/part_001` lines 100-107): skip the row if a
`rewards_given` row exists for (account, day), otherwise credit
`(row.amount / total) * pool` gems and insert the `rewards_given` row. -/
def distributeStep (day : String) (total : ℤ) (pool : ℚ) (s : MinerState)
    (row : SubmitRow) : MinerState :=
  if (row.account, day) ∈ s.rewardsGiven then s
  else
    { s with
      users := fun x =>
        if x = row.account then
          match s.users x with
          | some u => some { u with gems := u.gems + (row.amount : ℚ) / (total : ℚ) * pool }
          | none => none
        else s.users x,
      rewardsGiven := (row.account, day) :: s.rewardsGiven }

/-- `distributeGemsForDay(day)` (`unnamed/part_001` lines 91-108): read all
submits of the day, no-op when the list or the total is zero, then run the
per-row loop with `pool = 1000`. -/
def distributeGemsForDay (day : String) (s : MinerState) : MinerState :=
  let rows := s.submits.filter (fun r => r.day = day)
  if rows.isEmpty then s
  else
    let total : ℤ := (rows.map (fun r => r.amount)).sum
    if total = 0 then s
    else
      let pool : ℚ := 1000
      rows.foldl (distributeStep day total pool) s

/-- The per-row loop never touches the gems of an account that already has a
`rewards_given` row for the day, and it keeps that row present. -/
lemma distribute_fold_invariant (day : String) (total : ℤ) (pool : ℚ)
    (a : String) :
    ∀ (rows : List SubmitRow) (s : MinerState),
      (a, day) ∈ s.rewardsGiven →
      ((rows.foldl (distributeStep day total pool) s).gemsOf a = s.gemsOf a ∧
        (a, day) ∈ (rows.foldl (distributeStep day total pool) s).rewardsGiven) := by
  intro rows
  induction rows with
  | nil => intro s hs; exact ⟨rfl, hs⟩
  | cons row rest ih =>
      intro s hs
      simp only [List.foldl_cons]
      by_cases hrow : (row.account, day) ∈ s.rewardsGiven
      · have hstep : distributeStep day total pool s row = s := by
          simp [distributeStep, hrow]
        rw [hstep]
        exact ih s hs
      · have hne : a ≠ row.account := by
          intro h
          exact hrow (h ▸ hs)
        have hmem : (a, day) ∈ (distributeStep day total pool s row).rewardsGiven := by
          simp [distributeStep, hrow, List.mem_cons]
          exact Or.inr hs
        have hgems : (distributeStep day total pool s row).gemsOf a = s.gemsOf a := by
          simp [distributeStep, hrow, MinerState.gemsOf, hne]
        obtain ⟨h1, h2⟩ := ih (distributeStep day total pool s row) hmem
        exact ⟨h1.trans hgems, h2⟩

/-! ## Faucet-game variant (`faucet_game.db`, second server in `unnamed/part_001`)

`users(account, coins, gems, rate, level, last_tick, kahel_in_game,
last_claim_day)`, `burns(account, amount, day, timestamp)`,
`claims(account, day, kahel_cents, timestamp, txid)`.  All columns are
integers (KAHEL is stored in cents). -/

structure UserF where
  coins : ℤ
  gems : ℤ
  rate : ℤ
  level : ℤ
  last_tick : ℤ
  kahel_in_game : ℤ
  last_claim_day : ℤ
  deriving DecidableEq, Repr

structure BurnRow where
  account : String
  amount : ℤ
  day : String
  timestamp : ℤ
  deriving DecidableEq, Repr

structure ClaimRow where
  account : String
  day : String
  kahel_cents : ℤ
  timestamp : ℤ
  txid : Option String
  deriving DecidableEq, Repr

structure FaucetState where
  users : String → Option UserF
  burns : List BurnRow
  claims : List ClaimRow

/-- In-game KAHEL (cents) of an account, 0 when the row is absent. -/
def FaucetState.kahelOf (s : FaucetState) (a : String) : ℤ :=
  match s.users a with
  | some u => u.kahel_in_game
  | none => 0

/-- `accrueCoinsForUser` (`unnamed/part_001` lines 490-506): on a falsy or
non-positive `last_tick` just stamp `now`; if less than 1000 ms elapsed,
leave coins alone but still set `last_tick = now`; otherwise add
`floor(deltaMs / 1000) * (rate || 1)` coins and set `last_tick = now`. -/
def accrueCoinsForUser (now : ℤ) (u : UserF) : UserF :=
  if u.last_tick ≤ 0 then { u with last_tick := now }
  else
    let deltaMs := now - u.last_tick
    if deltaMs < 1000 then { u with last_tick := now }
    else
      let seconds : ℤ := ⌊(deltaMs : ℚ) / 1000⌋
      let add := seconds * (if u.rate = 0 then 1 else u.rate)
      { u with coins := u.coins + add, last_tick := now }

/-- `ensureUser` (`unnamed/part_001` lines 508-516): create a default row
(`coins 0, gems 0, rate 1, level 0, last_tick now, kahel 0`) when absent;
returns the (possibly extended) state and the user's row. -/
def ensureUserF (now : ℤ) (s : FaucetState) (a : String) : FaucetState × UserF :=
  match s.users a with
  | some u => (s, u)
  | none =>
      let u : UserF := ⟨0, 0, 1, 0, now, 0, 0⟩
      ({ s with users := fun x => if x = a then some u else s.users x }, u)

/-- Total burns recorded for a day (`sumBurnsByDay`). -/
def totalBurnToday (s : FaucetState) (today : String) : ℤ :=
  ((s.burns.filter (fun b => b.day = today)).map (fun b => b.amount)).sum

/-- Burns recorded for an account on a day (`sumBurnsByDayAndAccount`). -/
def userBurnToday (s : FaucetState) (a : String) (today : String) : ℤ :=
  ((s.burns.filter (fun b => b.day = today && b.account = a)).map
    (fun b => b.amount)).sum

/-- The share computation of `POST /claim` (`unnamed/part_001` lines
667-670): `Math.round(userBurn / totalBurn * 100)` capped at 100. -/
def claimShareCents (userBurn totalBurn : ℤ) : ℤ :=
  let share0 : ℤ := round ((userBurn : ℚ) / (totalBurn : ℚ) * 100)
  if 100 < share0 then 100 else share0

/-- `POST /claim` (`unnamed/part_001` lines 641-697).  `today` stands for
`yyyymmdd(now)`.  Rejects when a claims row for (account, today) exists,
when there are no burns today, when the caller has none, or when the share
rounds to zero cents; otherwise credits `kahel_in_game` and appends the
claims row. -/
def claimHandler (a : String) (now : ℤ) (today : String) (s : FaucetState) :
    Except String ℤ × FaucetState :=
  let p := ensureUserF now s a
  let s1 := p.1
  let u := accrueCoinsForUser now p.2
  match s1.claims.find? (fun c => c.account = a && c.day = today) with
  | some _ => (.error "already_claimed_today", s1)
  | none =>
      let totalBurn := totalBurnToday s1 today
      if totalBurn ≤ 0 then (.error "no_burns_today", s1)
      else
        let userBurn := userBurnToday s1 a today
        if userBurn ≤ 0 then (.error "no_personal_burns", s1)
        else
          let shareCents := claimShareCents userBurn totalBurn
          if shareCents ≤ 0 then (.error "share_too_small", s1)
          else
            let u2 := { u with kahel_in_game := u.kahel_in_game + shareCents }
            (.ok shareCents,
              { s1 with
                users := fun x => if x = a then some u2 else s1.users x,
                claims := s1.claims ++ [⟨a, today, shareCents, now, none⟩] })

/-- `POST /upgrade` of the faucet-game server (`unnamed/part_001` lines
580-597): accrue, charge `5 + level` gems, bump level and rate by one. -/
def upgradeF (a : String) (now : ℤ) (s : FaucetState) :
    Except String UserF × FaucetState :=
  let p := ensureUserF now s a
  let s1 := p.1
  let u := accrueCoinsForUser now p.2
  let cost := 5 + u.level
  if u.gems < cost then (.error "not_enough_gems", s1)
  else
    let u2 := { u with gems := u.gems - cost, level := u.level + 1, rate := u.rate + 1 }
    (.ok u2, { s1 with users := fun x => if x = a then some u2 else s1.users x })

/-! ## Miner-Faucet variant (`faucet_game.db`, second server in `src/server.js`)

`users(account, coins, gems, rate, level, last_active_ms, active,
kahel_offchain)` and `claims(account, amount, timestamp, txid)`. -/

structure UserK where
  coins : ℤ
  gems : ℤ
  rate : ℤ
  level : ℤ
  last_active_ms : Option ℤ
  active : Bool
  kahel_offchain : ℤ
  deriving DecidableEq, Repr

structure ClaimRec where
  account : String
  amount : ℤ
  timestamp : ℤ
  txid : Option String
  deriving DecidableEq, Repr

structure FaucetGState where
  users : String → Option UserK
  claims : List ClaimRec

/-- Off-chain KAHEL of an account, 0 when the row is absent. -/
def FaucetGState.kahelOf (s : FaucetGState) (a : String) : ℤ :=
  match s.users a with
  | some u => u.kahel_offchain
  | none => 0

/-- The body of `POST /ping` (`src/server.js` lines 473-507) acting on the
user's row: when the session is inactive, activate it and stamp `now`;
otherwise compute `elapsedSec = floor((now - last) / 1000)` (with
`last = user.last_active_ms || now`), add `elapsedSec * rate` coins when at
least one full second elapsed, and in **both** branches set
`last_active_ms = now`. -/
def pingUpdate (now : ℤ) (u : UserK) : UserK :=
  if ¬ u.active then { u with last_active_ms := some now, active := true }
  else
    let last : ℤ :=
      match u.last_active_ms with
      | none => now
      | some v => if v = 0 then now else v
    let elapsedSec : ℤ := ⌊((now - last : ℤ) : ℚ) / 1000⌋
    if 0 < elapsedSec then
      { u with coins := u.coins + elapsedSec * u.rate, last_active_ms := some now }
    else
      { u with last_active_ms := some now }

/-- `POST /upgrade` of the Miner-Faucet server (`src/server.js` lines
519-539): cost `5 + (level || 0)` gems; on success deduct the cost, set
`level = currentLevel + 1` and `rate = (rate || 1) + 1`. -/
def upgradeK (a : String) (users : String → Option UserK) :
    Except String UserK × (String → Option UserK) :=
  match users a with
  | none => (.error "not found", users)
  | some u =>
      let currentLevel := if u.level = 0 then 0 else u.level
      let cost := 5 + currentLevel
      if u.gems < cost then (.error "insufficient_gems", users)
      else
        let u2 := { u with
          gems := u.gems - cost,
          level := currentLevel + 1,
          rate := (if u.rate = 0 then 1 else u.rate) + 1 }
        (.ok u2, fun x => if x = a then some u2 else users x)

/-- Sum of the amounts of an account's claims records whose timestamp is at
or after the start of the current UTC day (`getDailyTotal`). -/
def dailySumOf (claims : List ClaimRec) (a : String) (startMs : ℤ) : ℤ :=
  ((claims.filter (fun c => c.account = a && startMs ≤ c.timestamp)).map
    (fun c => c.amount)).sum

/-- `POST /cashout` of the Miner-Faucet server (`src/server.js` lines
596-667).  `startMs` stands for `(new Date()).setUTCHours(0,0,0,0)` and
`transfer` for the outcome of `api.transact`.  The third component records
whether the external transfer was attempted.  Order of effects, as in the
source: validations, daily-limit check, insert a claims row with null txid,
transfer, then set the txid and deduct `kahel_offchain`. -/
def cashoutK (dailyLimit maxPerRequest : ℤ) (a : String)
    (amountInt now startMs : ℤ) (transfer : Except Unit String)
    (s : FaucetGState) : Except String String × FaucetGState × Bool :=
  if amountInt ≤ 0 then (.error "amount must be positive integer", s, false)
  else if maxPerRequest < amountInt then (.error "max per request", s, false)
  else
    match s.users a with
    | none => (.error "not found", s, false)
    | some u =>
        if u.kahel_offchain < amountInt then
          (.error "insufficient_offchain_kahel", s, false)
        else
          let dailySum := dailySumOf s.claims a startMs
          if dailyLimit < dailySum + amountInt then
            (.error "Daily limit exceeded", s, false)
          else
            match transfer with
            | .error _ =>
                (.error "internal_error",
                  { s with claims := s.claims ++ [⟨a, amountInt, now, none⟩] }, true)
            | .ok txid =>
                let u2 := { u with kahel_offchain := u.kahel_offchain - amountInt }
                (.ok txid,
                  { users := fun x => if x = a then some u2 else s.users x,
                    claims := s.claims ++ [⟨a, amountInt, now, some txid⟩] }, true)

/-- `POST /redeem` of the free-KAHEL faucet (`src/freekahel/server.js` lines
77-139): same validations and daily-limit guard as `cashoutK` but with no
user balance; on success the claims row's txid is filled in. -/
def redeemR (dailyLimit maxPerRequest : ℤ) (a : String)
    (intAmount now startMs : ℤ) (transfer : Except Unit String)
    (claims : List ClaimRec) : Except String String × List ClaimRec × Bool :=
  if intAmount ≤ 0 then (.error "amount must be positive integer", claims, false)
  else if maxPerRequest < intAmount then (.error "max per request", claims, false)
  else
    let dailySum := dailySumOf claims a startMs
    if dailyLimit < dailySum + intAmount then
      (.error "Daily limit exceeded", claims, false)
    else
      match transfer with
      | .error _ =>
          (.error "internal_error", claims ++ [⟨a, intAmount, now, none⟩], true)
      | .ok txid =>
          (.ok txid, claims ++ [⟨a, intAmount, now, some txid⟩], true)

/-! ## Miner-game cashout (`unnamed/part_001` lines 330-373)

Gems are exchanged for on-chain KAHEL.  The deduction is optimistic; the
only compensated failure path in the source is the unconfigured-api branch;
a thrown `api.transact` lands in the catch block, which returns the error
without re-crediting. -/

/-- Create-if-absent for the miner-game `users` table (`ensureUser`,
`unnamed/part_001` lines 110-117; default `miner_level` is 1). -/
def ensureUserM (s : MinerState) (a : String) : MinerState × MinerUser :=
  match s.users a with
  | some u => (s, u)
  | none =>
      let u : MinerUser := ⟨0, 0, 1⟩
      ({ s with users := fun x => if x = a then some u else s.users x }, u)

/-- Overwrite one account's row of the miner-game `users` table. -/
def setUserM (s : MinerState) (a : String) (u : MinerUser) : MinerState :=
  { s with users := fun x => if x = a then some u else s.users x }

/-- `POST /cashout` of the miner-game server (`unnamed/part_001` lines
330-373).  `apiOk` is whether the on-chain api handle is configured and
`transfer` is the outcome of `api.transact`.  After the optimistic gems
deduction, only the `!api` branch re-credits; a transfer error is returned
from the catch block with the deduction left in place. -/
def cashoutGems (a : String) (g : ℤ) (apiOk : Bool)
    (transfer : Except Unit String) (s : MinerState) :
    Except String String × MinerState :=
  if g ≤ 0 then (.error "invalid_gems_to_cashout", s)
  else
    let p := ensureUserM s a
    let s1 := p.1
    let u := p.2
    if u.gems < (g : ℚ) then (.error "not_enough_gems", s1)
    else
      let u1 := { u with gems := u.gems - (g : ℚ) }
      let s2 := setUserM s1 a u1
      if ¬ apiOk then
        let u2 := { u1 with gems := u1.gems + (g : ℚ) }
        (.error "onchain_unavailable", setUserM s2 a u2)
      else
        match transfer with
        | .error _ => (.error "internal_error", s2)
        | .ok txid => (.ok txid, s2)

/-! ## Mines wager game (first server in `src/server.js`, Supabase variant)

`games(game_id, wallet, bet, mine_positions, revealed, safe_clicks,
multiplier, status)` and `players(wallet, credits)`. -/

inductive GameStatus where
  | active
  | lost
  | cashedOut
  deriving DecidableEq, Repr

structure MinesGame where
  wallet : String
  bet : ℚ
  multiplier : ℚ
  status : GameStatus
  deriving DecidableEq, Repr

/-- `Number(x.toFixed(2))`: round to two decimal places (half away from
zero on the positive values that occur here). -/
def round2 (x : ℚ) : ℚ := (round (x * 100) : ℤ) / 100

/-- The fair-payout loop of `POST /game/click` (`src/server.js` lines
145-153): starting from 1, multiply by
`(totalTiles - i) / (safeTiles - i)` for `i = 0 .. safeClicks - 1`, with
`totalTiles = 25` and `safeTiles = 25 - bombs`. -/
def fairPayoutLoop (safeTiles : ℚ) : ℕ → ℚ
  | 0 => 1
  | k + 1 => fairPayoutLoop safeTiles k * ((25 - (k : ℚ)) / (safeTiles - (k : ℚ)))

/-- The multiplier stored by `POST /game/click` after a safe reveal
(`src/server.js` lines 141-164): the fair-payout product, capped at `1e12`,
times `1 - 0.035`, rounded via `toFixed(2)`, floored at `1.01`. -/
def clickMultiplier (bombs : ℕ) (safeClicks : ℕ) : ℚ :=
  let totalTiles : ℚ := 25
  let safeTiles : ℚ := totalTiles - (bombs : ℚ)
  let fairPayout := fairPayoutLoop safeTiles safeClicks
  let fairPayout := if (10 : ℚ) ^ 12 < fairPayout then (10 : ℚ) ^ 12 else fairPayout
  let houseEdge : ℚ := 35 / 1000
  let finalMultiplier := round2 (fairPayout * (1 - houseEdge))
  max finalMultiplier (101 / 100)

/-- Modelled from the spec (§4.3, §8 "Multiplier example"): the fair-odds
product formula, `∏ i = 1..k, (N - i + 1) / ((N - H) - i + 1)` with board
size `N = 25`, followed by the house-edge factor, two-decimal rounding and
the 1.01 floor.  Used only to compare against `clickMultiplier`. -/
def specFairValue (hazards : ℕ) (k : ℕ) : ℚ :=
  ∏ i ∈ Finset.Icc 1 k, ((25 : ℚ) - (i : ℚ) + 1) / (((25 : ℚ) - (hazards : ℚ)) - (i : ℚ) + 1)

/-- Modelled from the spec: the stored multiplier according to §4.3. -/
def specMultiplier (hazards : ℕ) (k : ℕ) : ℚ :=
  max (round2 (specFairValue hazards k * (1 - 35 / 1000))) (101 / 100)

/-- `POST /game/cashout` (`src/server.js` lines 186-212): the status update
is conditioned on `{game_id, wallet, status: 'active'}` matching; on a
match the game becomes `cashedOut` and `bet * multiplier` (no rounding) is
added to the player's credits; otherwise nothing changes and an error is
returned. -/
def gameCashout (w : String) (g : MinesGame) (credits : ℚ) :
    Except String ℚ × MinesGame × ℚ :=
  if g.wallet = w ∧ g.status = GameStatus.active then
    let g2 := { g with status := GameStatus.cashedOut }
    let winnings := g.bet * g.multiplier
    (.ok winnings, g2, credits + winnings)
  else (.error "Game not active or not yours", g, credits)

/-! ## Helper lemmas -/

lemma ensureUserF_claims (now : ℤ) (s : FaucetState) (a : String) :
    (ensureUserF now s a).1.claims = s.claims := by
  unfold ensureUserF
  cases h : s.users a <;> simp [h]

lemma ensureUserF_burns (now : ℤ) (s : FaucetState) (a : String) :
    (ensureUserF now s a).1.burns = s.burns := by
  unfold ensureUserF
  cases h : s.users a <;> simp [h]

lemma ensureUserF_kahelOf (now : ℤ) (s : FaucetState) (a : String) :
    (ensureUserF now s a).1.kahelOf a = s.kahelOf a := by
  unfold ensureUserF FaucetState.kahelOf
  cases h : s.users a <;> simp [h]

lemma ensureUserF_of_mem (now : ℤ) (s : FaucetState) (a : String) (u : UserF)
    (h : s.users a = some u) : ensureUserF now s a = (s, u) := by
  unfold ensureUserF
  rw [h]

/-- `accrueCoinsForUser` only touches `coins` and `last_tick`. -/
lemma accrue_preserves (now : ℤ) (u : UserF) :
    (accrueCoinsForUser now u).gems = u.gems ∧
    (accrueCoinsForUser now u).level = u.level ∧
    (accrueCoinsForUser now u).rate = u.rate ∧
    (accrueCoinsForUser now u).kahel_in_game = u.kahel_in_game := by
  unfold accrueCoinsForUser
  by_cases h1 : u.last_tick ≤ 0
  · simp [h1]
  · by_cases h2 : now - u.last_tick < 1000
    · simp [h1, h2]
    · simp [h1, h2]

/-- claim C1: For every day-bucket, invoking the pool distribution / claim
operation any number of times credits each contributing account's reward
(gems / KAHEL-cents) at most once for that day: once a reward row exists for
(account, day), every later distribution or claim attempt for that same
(account, day) leaves the account's reward balance unchanged.  First
conjunct: `distributeGemsForDay` does not change the gems of an account
with a `rewards_given` row for the day.  Second conjunct: `POST /claim`
returns an error and leaves `kahel_in_game` unchanged when a claims row for
(account, today) exists. -/
theorem c1_at_most_once_award :
    (∀ (s : MinerState) (day a : String), (a, day) ∈ s.rewardsGiven →
      (distributeGemsForDay day s).gemsOf a = s.gemsOf a) ∧
    (∀ (s : FaucetState) (a : String) (now : ℤ) (today : String) (c : ClaimRow),
      c ∈ s.claims → c.account = a → c.day = today →
      (claimHandler a now today s).1.isOk = false ∧
      (claimHandler a now today s).2.kahelOf a = s.kahelOf a) := by
  constructor
  · intro s day a h
    unfold distributeGemsForDay
    simp only []
    split
    · rfl
    · split
      · rfl
      · exact (distribute_fold_invariant day _ _ a _ s h).1
  · intro s a now today c hc hacc hday
    have hclaims : ((ensureUserF now s a).1).claims = s.claims :=
      ensureUserF_claims now s a
    have hfind : (((ensureUserF now s a).1).claims.find?
        (fun c => c.account = a && c.day = today)).isSome := by
      rw [hclaims, List.find?_isSome]
      exact ⟨c, hc, by simp [hacc, hday]⟩
    obtain ⟨c', hc'⟩ := Option.isSome_iff_exists.mp hfind
    constructor
    · simp [claimHandler, hc', Except.isOk, Except.toBool]
    · simp [claimHandler, hc', ensureUserF_kahelOf now s a]

def c1MinerWitnessState : MinerState :=
  { users := fun x => if x = "A" then some ⟨0, 7, 1⟩ else none,
    submits := [⟨"A", 3, "20251010"⟩],
    rewardsGiven := [("A", "20251010")] }

def c1FaucetWitnessState : FaucetState :=
  { users := fun x => if x = "a" then some ⟨0, 0, 1, 0, 5, 40, 0⟩ else none,
    burns := [⟨"a", 9, "20251010", 5⟩],
    claims := [⟨"a", "20251010", 40, 5, none⟩] }

/-- Witness for `c1_at_most_once_award` at concrete states. -/
theorem c1_at_most_once_award_witness :
    (distributeGemsForDay "20251010" c1MinerWitnessState).gemsOf "A" =
      c1MinerWitnessState.gemsOf "A" ∧
    (claimHandler "a" 7 "20251010" c1FaucetWitnessState).1.isOk = false ∧
    (claimHandler "a" 7 "20251010" c1FaucetWitnessState).2.kahelOf "a" =
      c1FaucetWitnessState.kahelOf "a" :=
  ⟨c1_at_most_once_award.1 c1MinerWitnessState "20251010" "A" (by decide),
    (c1_at_most_once_award.2 c1FaucetWitnessState "a" 7 "20251010"
      ⟨"a", "20251010", 40, 5, none⟩ (by decide) rfl rfl).1,
    (c1_at_most_once_award.2 c1FaucetWitnessState "a" 7 "20251010"
      ⟨"a", "20251010", 40, 5, none⟩ (by decide) rfl rfl).2⟩

def c2State : MinerState :=
  { users := fun x => if x = "a" then some ⟨0, 100, 1⟩ else none,
    submits := [],
    rewardsGiven := [] }

/-- claim C2 (code bug): the spec requires that a cash-out whose on-chain
transfer fails leaves the off-chain balance exactly as before the call, but
in `POST /cashout` of the miner-game server a thrown `api.transact` lands
in the catch block, which returns the error without the compensating
re-credit: starting from 100 gems, a failed 50-gem cash-out leaves the
account at 50 gems, not 100. -/
theorem c2_cashout_failure_keeps_debit :
    ((cashoutGems "a" 50 true (Except.error ()) c2State).2).gemsOf "a" = 50 ∧
    ((cashoutGems "a" 50 true (Except.error ()) c2State).2).gemsOf "a" ≠
      c2State.gemsOf "a" ∧
    (cashoutGems "a" 50 true (Except.error ()) c2State).1 =
      Except.error "internal_error" := by
  refine ⟨?_, ?_, ?_⟩
  · simp [cashoutGems, ensureUserM, setUserM, MinerState.gemsOf, c2State]
    norm_num
  · simp [cashoutGems, ensureUserM, setUserM, MinerState.gemsOf, c2State]
    norm_num
  · simp [cashoutGems, ensureUserM, setUserM, c2State]
    norm_num

def c5State : MinerState :=
  { users := fun x => if x = "A" ∨ x = "B" then some ⟨0, 0, 1⟩ else none,
    submits := [⟨"A", 1, "20251010"⟩, ⟨"B", 2, "20251010"⟩],
    rewardsGiven := [] }

def c5StateTwoRows : MinerState :=
  { users := fun x => if x = "A" ∨ x = "B" then some ⟨0, 0, 1⟩ else none,
    submits := [⟨"A", 1, "20251010"⟩, ⟨"A", 1, "20251010"⟩, ⟨"B", 2, "20251010"⟩],
    rewardsGiven := [] }

/-- claim C5 (code bug): the spec requires each contributor's reward to be
`round(c / T * P)` (round half up, capped at `P`), but `distributeGemsForDay`
credits the unrounded `(row.amount / total) * pool`: with contributions
A = 1, B = 2 and pool 1000, account A is credited `1000 / 3` gems — a
non-integer written to the INTEGER `gems` column, differing from the
rounded share 333.  Moreover, the loop walks individual submit rows, so an
account with two submits of 1 each (total contribution 2 out of 4) is
credited only its first row's share `250` instead of `round(2/4*1000) = 500`. -/
theorem c5_share_unrounded_uncapped :
    (distributeGemsForDay "20251010" c5State).gemsOf "A" = 1000 / 3 ∧
    (¬ ∃ n : ℤ, (1000 : ℚ) / 3 = n) ∧
    (1000 : ℚ) / 3 ≠ ((round ((1 : ℚ) / 3 * 1000) : ℤ) : ℚ) ∧
    (distributeGemsForDay "20251010" c5StateTwoRows).gemsOf "A" = 250 ∧
    (250 : ℚ) ≠ ((round ((2 : ℚ) / 4 * 1000) : ℤ) : ℚ) := by
  refine ⟨?_, ?_, ?_, ?_, ?_⟩
  · simp [distributeGemsForDay, distributeStep, MinerState.gemsOf, c5State]
    norm_num
  · rintro ⟨n, hn⟩
    have h3 : (3 : ℚ) * n = 1000 := by rw [← hn]; ring
    have h4 : (3 : ℤ) * n = 1000 := by exact_mod_cast h3
    omega
  · rw [round_eq]
    norm_num [Int.floor_eq_iff]
  · simp [distributeGemsForDay, distributeStep, MinerState.gemsOf, c5StateTwoRows]
    norm_num
  · rw [round_eq]
    norm_num [Int.floor_eq_iff]

/-- The fair-payout loop as a ratio of descending factorials. -/
lemma fairPayoutLoop_df (A : ℕ) (hA : A ≤ 25) :
    ∀ k : ℕ, k ≤ A →
      fairPayoutLoop (A : ℚ) k =
        (Nat.descFactorial 25 k : ℚ) / (Nat.descFactorial A k : ℚ) := by
  intro k
  induction k with
  | zero => intro _; simp [fairPayoutLoop]
  | succ k ih =>
      intro hk
      have hkA : k ≤ A := Nat.le_of_succ_le hk
      have hk25 : k < 25 := lt_of_lt_of_le (Nat.lt_of_succ_le hk) hA
      rw [fairPayoutLoop, ih hkA, Nat.descFactorial_succ, Nat.descFactorial_succ]
      have c1 : (25 : ℚ) - (k : ℚ) = ((25 - k : ℕ) : ℚ) := by
        rw [Nat.cast_sub (le_of_lt hk25)]
        norm_num
      have c2 : (A : ℚ) - (k : ℚ) = ((A - k : ℕ) : ℚ) := by
        rw [Nat.cast_sub hkA]
      rw [c1, c2, div_mul_div_comm]
      push_cast
      ring

/-- For a valid board the fair-payout product never reaches the `1e12`
overflow cap. -/
lemma fairPayoutLoop_le (H k : ℕ) (hH : H ≤ 24) (hk : k ≤ 25 - H) :
    fairPayoutLoop (25 - (H : ℚ)) k ≤ 10 ^ 12 := by
  have hA : (25 - H : ℕ) ≤ 25 := by omega
  have hcast : (25 : ℚ) - (H : ℚ) = ((25 - H : ℕ) : ℚ) := by
    rw [Nat.cast_sub (by omega : H ≤ 25)]
    norm_num
  rw [hcast, fairPayoutLoop_df (25 - H) hA k hk,
    Nat.descFactorial_eq_factorial_mul_choose, Nat.descFactorial_eq_factorial_mul_choose]
  push_cast
  rw [mul_div_mul_left _ _ (by positivity : ((Nat.factorial k : ℕ) : ℚ) ≠ 0)]
  have hpos : 1 ≤ ((Nat.choose (25 - H) k : ℕ) : ℚ) := by
    exact_mod_cast Nat.succ_le_of_lt (Nat.choose_pos hk)
  have h0 : (0 : ℚ) ≤ ((Nat.choose 25 k : ℕ) : ℚ) := by positivity
  have hk26 : k ∈ Finset.range 26 := by
    simp only [Finset.mem_range]
    omega
  have hsum := Finset.single_le_sum
    (f := fun m => Nat.choose 25 m) (fun i _ => Nat.zero_le _) hk26
  rw [show (26 : ℕ) = 25 + 1 from rfl, Nat.sum_range_choose] at hsum
  calc ((Nat.choose 25 k : ℕ) : ℚ) / ((Nat.choose (25 - H) k : ℕ) : ℚ)
      ≤ ((Nat.choose 25 k : ℕ) : ℚ) := div_le_self h0 hpos
    _ ≤ ((2 ^ 25 : ℕ) : ℚ) := by exact_mod_cast hsum
    _ ≤ 10 ^ 12 := by norm_num

/-- The iterative fair-payout loop equals the spec's `i = 1..k` product. -/
lemma fairPayoutLoop_eq_spec (H : ℕ) :
    ∀ k : ℕ, fairPayoutLoop (25 - (H : ℚ)) k = specFairValue H k := by
  intro k
  induction k with
  | zero => simp [fairPayoutLoop, specFairValue]
  | succ k ih =>
      rw [fairPayoutLoop, ih]
      simp only [specFairValue]
      rw [Finset.prod_Icc_succ_top (Nat.le_add_left 1 k)]
      congr 1
      push_cast
      ring

/-- claim C3: For every active session on a 25-cell board with H hazards
(1 ≤ H ≤ 24), after k successive safe reveals the stored multiplier equals
the product over i = 1..k of `(25 - i + 1) / ((25 - H) - i + 1)`,
multiplied by `1 - 0.035`, rounded to two decimals and clamped below at
1.01; in particular for H = 5 and k = 1 the multiplier is
`1.25 × 0.965 = 1.20625`, i.e. `1.21` at two decimals.  (JS doubles are
modelled exactly as rationals.) -/
theorem c3_multiplier_formula :
    (∀ H k : ℕ, 1 ≤ H → H ≤ 24 → 1 ≤ k → k ≤ 25 - H →
      clickMultiplier H k = specMultiplier H k) ∧
    clickMultiplier 5 1 = 121 / 100 := by
  constructor
  · intro H k _ h2 _ h4
    unfold clickMultiplier specMultiplier
    simp only []
    rw [if_neg (not_lt.2 (fairPayoutLoop_le H k h2 h4)), fairPayoutLoop_eq_spec H k]
  · unfold clickMultiplier
    simp only [fairPayoutLoop]
    norm_num [round2, round_eq, Int.floor_eq_iff]

/-- Witness for `c3_multiplier_formula` at the worked example H = 5, k = 1. -/
theorem c3_multiplier_formula_witness :
    clickMultiplier 5 1 = specMultiplier 5 1 :=
  c3_multiplier_formula.1 5 1 (by norm_num) (by norm_num) (by norm_num) (by norm_num)

def c4Game : MinesGame := ⟨"w", 10, 121 / 100, GameStatus.active⟩

/-- claim C4 counterexample: `POST /game/cashout` credits the raw product
`bet * multiplier` with no rounding: with stake 10 and multiplier 1.21 it
credits 12.1 — not an integer at all, hence not the claimed
"stake × multiplier, integer-rounded per the currency's minor unit"
(`round(12.1) = 12`). -/
theorem c4_cashout_unrounded_counterexample :
    (gameCashout "w" c4Game 0).2.2 = 121 / 10 ∧
    (¬ ∃ n : ℤ, (121 : ℚ) / 10 = n) ∧
    (121 : ℚ) / 10 ≠ ((round (c4Game.bet * c4Game.multiplier) : ℤ) : ℚ) := by
  refine ⟨?_, ?_, ?_⟩
  · simp [gameCashout, c4Game]
    norm_num
  · rintro ⟨n, hn⟩
    have h3 : (10 : ℚ) * n = 121 := by rw [← hn]; ring
    have h4 : (10 : ℤ) * n = 121 := by exact_mod_cast h3
    omega
  · simp only [c4Game]
    rw [round_eq]
    norm_num [Int.floor_eq_iff]

/-- claim C4 as amended: cash-out succeeds only while the session is active
(any other state, including a second cash-out on the same session, fails
and credits nothing), and a successful cash-out transitions the session to
`cashedOut` and credits exactly `stake * multiplier` — the raw, unrounded
product — to the player's credits. -/
theorem c4_cashout_amended (w : String) (g : MinesGame) (credits : ℚ) :
    (¬(g.wallet = w ∧ g.status = GameStatus.active) →
      gameCashout w g credits = (.error "Game not active or not yours", g, credits)) ∧
    (g.wallet = w → g.status = GameStatus.active →
      (gameCashout w g credits).1 = .ok (g.bet * g.multiplier) ∧
      (gameCashout w g credits).2.1.status = GameStatus.cashedOut ∧
      (gameCashout w g credits).2.2 = credits + g.bet * g.multiplier) ∧
    (g.wallet = w → g.status = GameStatus.active →
      gameCashout w (gameCashout w g credits).2.1 (gameCashout w g credits).2.2 =
        (.error "Game not active or not yours",
          (gameCashout w g credits).2.1, (gameCashout w g credits).2.2)) := by
  refine ⟨?_, ?_, ?_⟩
  · intro h
    simp [gameCashout, h]
  · intro hw hs
    simp [gameCashout, hw, hs]
  · intro hw hs
    simp [gameCashout, hw, hs]

def c4WitnessGame : MinesGame := ⟨"w", 7, 3 / 2, GameStatus.active⟩

/-- Witness for `c4_cashout_amended` at a concrete active game. -/
theorem c4_cashout_amended_witness :
    ((gameCashout "w" c4WitnessGame 5).1 = .ok (c4WitnessGame.bet * c4WitnessGame.multiplier) ∧
      (gameCashout "w" c4WitnessGame 5).2.1.status = GameStatus.cashedOut ∧
      (gameCashout "w" c4WitnessGame 5).2.2 = 5 + c4WitnessGame.bet * c4WitnessGame.multiplier) ∧
    gameCashout "w" (gameCashout "w" c4WitnessGame 5).2.1 (gameCashout "w" c4WitnessGame 5).2.2 =
      (.error "Game not active or not yours",
        (gameCashout "w" c4WitnessGame 5).2.1, (gameCashout "w" c4WitnessGame 5).2.2) :=
  ⟨(c4_cashout_amended "w" c4WitnessGame 5).2.1 rfl rfl,
    (c4_cashout_amended "w" c4WitnessGame 5).2.2 rfl rfl⟩

lemma floorDiv1000_eq_zero {x : ℤ} (h0 : 0 ≤ x) (h1 : x < 1000) :
    ⌊(x : ℚ) / 1000⌋ = 0 := by
  rw [Int.floor_eq_zero_iff]
  refine Set.mem_Ico.mpr ⟨div_nonneg (by exact_mod_cast h0) (by norm_num), ?_⟩
  rw [div_lt_one (by norm_num)]
  exact_mod_cast h1

lemma floorDiv1000_of_mul (m : ℤ) : ⌊((1000 * m : ℤ) : ℚ) / 1000⌋ = m := by
  push_cast
  rw [mul_comm, mul_div_assoc]
  norm_num

/-- On an active user with a positive recorded tick time in the past, a ping
adds `floor((now - last) / 1000) * rate` coins and stamps `now` — whether or
not a full second elapsed. -/
lemma pingUpdate_active (u : UserK) (now l : ℤ) (hact : u.active = true)
    (hlast : u.last_active_ms = some l) (hl0 : 0 < l) (hln : l ≤ now) :
    pingUpdate now u =
      { u with coins := u.coins + ⌊((now - l : ℤ) : ℚ) / 1000⌋ * u.rate,
               last_active_ms := some now } := by
  have hne : ¬ l = 0 := by omega
  have h0 : 0 ≤ ((now - l : ℤ) : ℚ) / 1000 :=
    div_nonneg (by exact_mod_cast sub_nonneg.2 hln) (by norm_num)
  unfold pingUpdate
  rw [if_neg (not_not_intro hact), hlast]
  dsimp only
  rw [if_neg hne]
  by_cases he : 0 < ⌊((now - l : ℤ) : ℚ) / 1000⌋
  · rw [if_pos he]
  · rw [if_neg he]
    have he0 : ⌊((now - l : ℤ) : ℚ) / 1000⌋ = 0 :=
      le_antisymm (not_lt.1 he) (Int.floor_nonneg.2 h0)
    rw [he0]
    simp

/-- claim C6 as amended: a tick arriving less than one full second after the
last tick leaves the coin balance unchanged but advances the last-tick
timestamp to `now`, discarding the fractional elapsed time (both in
`POST /ping` of `src/server.js` and in `accrueCoinsForUser` of
`unnamed/part_001`). -/
theorem c6_subsecond_tick_amended :
    (∀ (u : UserK) (now l : ℤ), u.active = true → u.last_active_ms = some l →
      0 < l → l ≤ now → now - l < 1000 →
      (pingUpdate now u).coins = u.coins ∧
      (pingUpdate now u).last_active_ms = some now) ∧
    (∀ (u : UserF) (now : ℤ), 0 < u.last_tick → now - u.last_tick < 1000 →
      (accrueCoinsForUser now u).coins = u.coins ∧
      (accrueCoinsForUser now u).last_tick = now) := by
  constructor
  · intro u now l hact hlast hl0 hln hsub
    have hfloor : ⌊((now - l : ℤ) : ℚ) / 1000⌋ = 0 :=
      floorDiv1000_eq_zero (by omega) hsub
    rw [pingUpdate_active u now l hact hlast hl0 hln, hfloor]
    constructor
    · simp
    · rfl
  · intro u now h1 h2
    have h3 : ¬ u.last_tick ≤ 0 := by omega
    constructor
    · simp [accrueCoinsForUser, h3, h2]
    · simp [accrueCoinsForUser, h3, h2]

def c6PingUser : UserK := ⟨0, 0, 1, 0, some 1000, true, 0⟩

def c6AccrueUser : UserF := ⟨0, 0, 1, 0, 1000, 0, 0⟩

/-- Witness for `c6_subsecond_tick_amended`: a ping 500 ms after the last
tick leaves the coins alone but moves the timestamp to 1500. -/
theorem c6_subsecond_tick_amended_witness :
    ((pingUpdate 1500 c6PingUser).coins = c6PingUser.coins ∧
      (pingUpdate 1500 c6PingUser).last_active_ms = some 1500) ∧
    ((accrueCoinsForUser 1500 c6AccrueUser).coins = c6AccrueUser.coins ∧
      (accrueCoinsForUser 1500 c6AccrueUser).last_tick = 1500) :=
  ⟨c6_subsecond_tick_amended.1 c6PingUser 1500 1000 rfl rfl (by norm_num)
      (by norm_num) (by norm_num),
    c6_subsecond_tick_amended.2 c6AccrueUser 1500 (by norm_num [c6AccrueUser])
      (by norm_num [c6AccrueUser])⟩

def c6CexPingUser : UserK := ⟨0, 0, 1, 0, some 1000, true, 0⟩

def c6CexAccrueUser : UserF := ⟨0, 0, 1, 0, 1000, 0, 0⟩

/-- claim C6 counterexample: the claim says a sub-second tick "does not
advance the last-tick timestamp", but both tick implementations stamp `now`:
with last tick 1000 and a call at 1500, coins stay 0 yet the stored
timestamp becomes 1500 ≠ 1000. -/
theorem c6_subsecond_tick_counterexample :
    (pingUpdate 1500 c6CexPingUser).coins = c6CexPingUser.coins ∧
    (pingUpdate 1500 c6CexPingUser).last_active_ms ≠ c6CexPingUser.last_active_ms ∧
    (accrueCoinsForUser 1500 c6CexAccrueUser).last_tick ≠ c6CexAccrueUser.last_tick := by
  have hping := pingUpdate_active c6CexPingUser 1500 1000 rfl rfl (by norm_num) (by norm_num)
  have hfloor : ⌊((1500 - 1000 : ℤ) : ℚ) / 1000⌋ = 0 :=
    floorDiv1000_eq_zero (by norm_num) (by norm_num)
  rw [hfloor] at hping
  refine ⟨?_, ?_, ?_⟩
  · rw [hping]
    simp
  · rw [hping]
    simp [c6CexPingUser]
  · have h3 : ¬ (c6CexAccrueUser.last_tick ≤ 0) := by norm_num [c6CexAccrueUser]
    simp [accrueCoinsForUser, h3, c6CexAccrueUser]

/-- claim C7 as amended: each accruing tick advances `last_active_ms` to
`now` (not by `elapsed_seconds * 1000`), so the sub-second remainder is
discarded at every call; the final balance of a tick sequence agrees with a
single tick over the same period only when every call arrives a whole
number of seconds after the previous one. -/
theorem c7_tick_cadence_amended (u : UserK) (l t1 t2 : ℤ)
    (hact : u.active = true) (hlast : u.last_active_ms = some l) (hl0 : 0 < l)
    (h1 : l ≤ t1) (h2 : t1 ≤ t2) (d1 : (1000 : ℤ) ∣ t1 - l) (d2 : (1000 : ℤ) ∣ t2 - t1) :
    (pingUpdate t2 (pingUpdate t1 u)).coins = (pingUpdate t2 u).coins ∧
    (pingUpdate t1 u).last_active_ms = some t1 := by
  obtain ⟨m1, hm1⟩ := d1
  obtain ⟨m2, hm2⟩ := d2
  have e1 : ⌊((t1 - l : ℤ) : ℚ) / 1000⌋ = m1 := by
    rw [hm1]
    exact floorDiv1000_of_mul m1
  have e2 : ⌊((t2 - t1 : ℤ) : ℚ) / 1000⌋ = m2 := by
    rw [hm2]
    exact floorDiv1000_of_mul m2
  have h12 : t2 - l = 1000 * (m1 + m2) := by omega
  have e12 : ⌊((t2 - l : ℤ) : ℚ) / 1000⌋ = m1 + m2 := by
    rw [h12]
    exact floorDiv1000_of_mul (m1 + m2)
  have hping1 := pingUpdate_active u t1 l hact hlast hl0 h1
  have hu1last : (pingUpdate t1 u).last_active_ms = some t1 := by rw [hping1]
  have hu1act : (pingUpdate t1 u).active = true := by
    rw [hping1]
    exact hact
  have hping2 := pingUpdate_active (pingUpdate t1 u) t2 t1 hu1act hu1last (by omega) h2
  have hping0 := pingUpdate_active u t2 l hact hlast hl0 (le_trans h1 h2)
  refine ⟨?_, hu1last⟩
  rw [hping2, hping1, hping0]
  dsimp only
  rw [e1, e2, e12]
  ring

def c7PingUser : UserK := ⟨0, 0, 1, 0, some 1000, true, 0⟩

/-- claim C7 counterexample: ticks do not advance the timestamp by
`elapsed_seconds * 1000` but to `now`, so cadence-independence fails: with
rate 1 and last tick at 1000 ms, pings at 2500 ms and 4000 ms yield 2 coins
while a single ping at 4000 ms yields 3; the first ping stores 2500, not
`1000 + elapsed_seconds * 1000 = 2000`. -/
theorem c7_tick_cadence_counterexample :
    (pingUpdate 4000 (pingUpdate 2500 c7PingUser)).coins = 2 ∧
    (pingUpdate 4000 c7PingUser).coins = 3 ∧
    (pingUpdate 4000 (pingUpdate 2500 c7PingUser)).coins ≠
      (pingUpdate 4000 c7PingUser).coins ∧
    (pingUpdate 2500 c7PingUser).last_active_ms = some 2500 ∧
    (pingUpdate 2500 c7PingUser).last_active_ms ≠
      some (1000 + ⌊((2500 - 1000 : ℤ) : ℚ) / 1000⌋ * 1000) := by
  have f1 : ⌊((2500 - 1000 : ℤ) : ℚ) / 1000⌋ = 1 := by
    rw [show (((2500 - 1000 : ℤ) : ℚ)) = 1500 from by norm_num]
    norm_num [Int.floor_eq_iff]
  have f2 : ⌊((4000 - 2500 : ℤ) : ℚ) / 1000⌋ = 1 := by
    rw [show (((4000 - 2500 : ℤ) : ℚ)) = 1500 from by norm_num]
    norm_num [Int.floor_eq_iff]
  have f3 : ⌊((4000 - 1000 : ℤ) : ℚ) / 1000⌋ = 3 := by
    rw [show ((4000 - 1000 : ℤ)) = 1000 * 3 from by norm_num]
    exact floorDiv1000_of_mul 3
  have hping1 := pingUpdate_active c7PingUser 2500 1000 rfl rfl (by norm_num) (by norm_num)
  have hu1last : (pingUpdate 2500 c7PingUser).last_active_ms = some 2500 := by rw [hping1]
  have hu1act : (pingUpdate 2500 c7PingUser).active = true := by rw [hping1]; rfl
  have hping2 := pingUpdate_active (pingUpdate 2500 c7PingUser) 4000 2500 hu1act hu1last
    (by norm_num) (by norm_num)
  have hping0 := pingUpdate_active c7PingUser 4000 1000 rfl rfl (by norm_num) (by norm_num)
  refine ⟨?_, ?_, ?_, hu1last, ?_⟩
  · rw [hping2, hping1]
    dsimp only
    rw [f1, f2]
    norm_num [c7PingUser]
  · rw [hping0]
    dsimp only
    rw [f3]
    norm_num [c7PingUser]
  · rw [hping2, hping1, hping0]
    dsimp only
    rw [f1, f2, f3]
    norm_num [c7PingUser]
  · rw [hu1last, f1]
    norm_num

def c7WitnessUser : UserK := ⟨0, 0, 1, 0, some 1000, true, 0⟩

/-- Witness for `c7_tick_cadence_amended` at whole-second cadence:
pings at 2000 and 4000 equal one ping at 4000. -/
theorem c7_tick_cadence_amended_witness :
    (pingUpdate 4000 (pingUpdate 2000 c7WitnessUser)).coins =
      (pingUpdate 4000 c7WitnessUser).coins ∧
    (pingUpdate 2000 c7WitnessUser).last_active_ms = some 2000 :=
  c7_tick_cadence_amended c7WitnessUser 1000 2000 4000 rfl rfl (by norm_num)
    (by norm_num) (by norm_num) (by norm_num) (by norm_num)

/-- claim C8 as amended: a contributor whose proportional share of the
day's pool rounds to zero cents is rejected with a `share_too_small` error:
no claims row is recorded and `kahel_in_game` is unchanged, so the account
remains eligible to retry (the code comment says "if rounding gave zero,
deny"). -/
theorem c8_zero_share_amended (s : FaucetState) (a : String) (now : ℤ) (today : String)
    (hnone : s.claims.find? (fun c => c.account = a && c.day = today) = none)
    (htotal : 0 < totalBurnToday s today)
    (huser : 0 < userBurnToday s a today)
    (hshare : claimShareCents (userBurnToday s a today) (totalBurnToday s today) ≤ 0) :
    (claimHandler a now today s).1 = .error "share_too_small" ∧
    (claimHandler a now today s).2.claims = s.claims ∧
    (claimHandler a now today s).2.kahelOf a = s.kahelOf a := by
  have hclaims := ensureUserF_claims now s a
  have hburns := ensureUserF_burns now s a
  have htotal1 : totalBurnToday (ensureUserF now s a).1 today = totalBurnToday s today := by
    unfold totalBurnToday
    rw [hburns]
  have huser1 : userBurnToday (ensureUserF now s a).1 a today = userBurnToday s a today := by
    unfold userBurnToday
    rw [hburns]
  have hfind : (ensureUserF now s a).1.claims.find?
      (fun c => c.account = a && c.day = today) = none := by
    rw [hclaims]
    exact hnone
  refine ⟨?_, ?_, ?_⟩ <;>
    simp [claimHandler, hfind, hnone, htotal1, huser1, not_le.2 htotal, not_le.2 huser,
      hshare, hclaims, ensureUserF_kahelOf now s a]

def c8State : FaucetState :=
  { users := fun x => if x = "a" then some ⟨0, 0, 1, 0, 1000, 0, 0⟩ else none,
    burns := [⟨"a", 1, "20251010", 5⟩, ⟨"b", 1999, "20251010", 6⟩],
    claims := [] }

lemma c8State_total : totalBurnToday c8State "20251010" = 2000 := by
  simp [totalBurnToday, c8State]

lemma c8State_user : userBurnToday c8State "a" "20251010" = 1 := by
  simp [userBurnToday, c8State]

lemma c8State_share : claimShareCents 1 2000 = 0 := by
  unfold claimShareCents
  have hr : round (((1 : ℤ) : ℚ) / ((2000 : ℤ) : ℚ) * 100) = 0 := by
    rw [round_eq]
    norm_num [Int.floor_eq_iff]
  simp only [hr]
  norm_num

/-- claim C8 counterexample: the claim says a zero-rounding share still
records an award row showing zero, but `POST /claim` rejects the call with
`share_too_small` and records nothing: with a burn of 1 against a day total
of 2000 (share = round(0.05) = 0 cents) the claims table stays empty. -/
theorem c8_zero_share_counterexample :
    (claimHandler "a" 1000 "20251010" c8State).1 = .error "share_too_small" ∧
    (claimHandler "a" 1000 "20251010" c8State).2.claims = [] ∧
    (claimHandler "a" 1000 "20251010" c8State).2.kahelOf "a" = c8State.kahelOf "a" := by
  have hclaims := ensureUserF_claims 1000 c8State "a"
  have hburns := ensureUserF_burns 1000 c8State "a"
  have htotal1 : totalBurnToday (ensureUserF 1000 c8State "a").1 "20251010" = 2000 := by
    unfold totalBurnToday
    rw [hburns]
    exact c8State_total
  have huser1 : userBurnToday (ensureUserF 1000 c8State "a").1 "a" "20251010" = 1 := by
    unfold userBurnToday
    rw [hburns]
    exact c8State_user
  have hfind : (ensureUserF 1000 c8State "a").1.claims.find?
      (fun c => c.account = "a" && c.day = "20251010") = none := by
    rw [hclaims]
    rfl
  have hnone0 : c8State.claims.find?
      (fun c => c.account = "a" && c.day = "20251010") = none := rfl
  refine ⟨?_, ?_, ?_⟩
  · simp [claimHandler, hfind, hnone0, htotal1, huser1, c8State_share, hclaims,
      ensureUserF_kahelOf 1000 c8State "a"]
  · simp only [claimHandler, hfind, hnone0, htotal1, huser1, c8State_share, hclaims]
    norm_num
    rfl
  · simp [claimHandler, hfind, hnone0, htotal1, huser1, c8State_share, hclaims,
      ensureUserF_kahelOf 1000 c8State "a"]

/-- Witness for `c8_zero_share_amended` at the concrete zero-share state. -/
theorem c8_zero_share_amended_witness :
    (claimHandler "a" 1000 "20251010" c8State).1 = .error "share_too_small" ∧
    (claimHandler "a" 1000 "20251010" c8State).2.claims = c8State.claims ∧
    (claimHandler "a" 1000 "20251010" c8State).2.kahelOf "a" = c8State.kahelOf "a" :=
  c8_zero_share_amended c8State "a" 1000 "20251010" rfl
    (by rw [c8State_total]; norm_num)
    (by rw [c8State_user]; norm_num)
    (by rw [c8State_total, c8State_user, c8State_share])

/-- claim C9: For every account and requested cash-out amount, if the sum of
that account's prior settlement-record amounts within the current UTC day
plus the requested amount exceeds the configured daily limit, the call is
rejected (HTTP 429) before any balance debit or external transfer is
attempted — in `POST /cashout` of the Miner-Faucet server and in
`POST /redeem` of the free-KAHEL faucet.  The final `false` component
records that the external transfer was never attempted; the returned state
is exactly the input state. -/
theorem c9_daily_limit_guard :
    (∀ (dailyLimit maxPerRequest : ℤ) (a : String) (amountInt now startMs : ℤ)
        (transfer : Except Unit String) (s : FaucetGState) (u : UserK),
      s.users a = some u → 0 < amountInt → amountInt ≤ maxPerRequest →
      amountInt ≤ u.kahel_offchain →
      dailyLimit < dailySumOf s.claims a startMs + amountInt →
      cashoutK dailyLimit maxPerRequest a amountInt now startMs transfer s =
        (.error "Daily limit exceeded", s, false)) ∧
    (∀ (dailyLimit maxPerRequest : ℤ) (a : String) (intAmount now startMs : ℤ)
        (transfer : Except Unit String) (claims : List ClaimRec),
      0 < intAmount → intAmount ≤ maxPerRequest →
      dailyLimit < dailySumOf claims a startMs + intAmount →
      redeemR dailyLimit maxPerRequest a intAmount now startMs transfer claims =
        (.error "Daily limit exceeded", claims, false)) := by
  constructor
  · intro L M a amt now start tr s u hu h1 h2 h3 h4
    simp [cashoutK, hu, not_le.2 h1, not_lt.2 h2, not_lt.2 h3, h4]
  · intro L M a amt now start tr claims h1 h2 h3
    simp [redeemR, not_le.2 h1, not_lt.2 h2, h3]

def c9State : FaucetGState :=
  { users := fun x => if x = "a" then some ⟨0, 0, 1, 0, none, false, 200⟩ else none,
    claims := [⟨"a", 900, 10, some "t1"⟩] }

/-- Witness for `c9_daily_limit_guard`: limit 1000, 900 already redeemed
today, a further 150 is rejected untouched. -/
theorem c9_daily_limit_guard_witness :
    cashoutK 1000 200 "a" 150 20 0 (.ok "t2") c9State =
      (.error "Daily limit exceeded", c9State, false) ∧
    redeemR 1000 200 "a" 150 20 0 (.ok "t2") c9State.claims =
      (.error "Daily limit exceeded", c9State.claims, false) :=
  ⟨c9_daily_limit_guard.1 1000 200 "a" 150 20 0 (.ok "t2") c9State
      ⟨0, 0, 1, 0, none, false, 200⟩ (by simp [c9State]) (by norm_num) (by norm_num)
      (by norm_num) (by simp [c9State, dailySumOf]),
    c9_daily_limit_guard.2 1000 200 "a" 150 20 0 (.ok "t2") c9State.claims
      (by norm_num) (by norm_num) (by simp [c9State, dailySumOf])⟩

lemma ite_zero_self (n : ℤ) : (if n = 0 then 0 else n) = n := by
  by_cases h : n = 0 <;> simp [h]

/-- claim C10: For every account, the upgrade operation costs exactly
`5 + current_level` gems: with fewer gems it fails with an
insufficient-gems error and leaves the stored account unchanged; otherwise
it deducts exactly that many gems, increments the level by 1 and the
per-second accrual rate by exactly 1 (assuming the stored rate is ≥ 1, its
schema invariant, since the Miner-Faucet variant computes
`(rate || 1) + 1`).  Covers `POST /upgrade` of `src/server.js` and of the
faucet-game server in `unnamed/part_001`. -/
theorem c10_upgrade_cost :
    (∀ (users : String → Option UserK) (a : String) (u : UserK),
      users a = some u →
      (u.gems < 5 + u.level → upgradeK a users = (.error "insufficient_gems", users)) ∧
      (5 + u.level ≤ u.gems → 1 ≤ u.rate →
        ∃ u2, (upgradeK a users).1 = .ok u2 ∧ (upgradeK a users).2 a = some u2 ∧
          u2.gems = u.gems - (5 + u.level) ∧ u2.level = u.level + 1 ∧
          u2.rate = u.rate + 1)) ∧
    (∀ (s : FaucetState) (a : String) (now : ℤ) (u : UserF),
      s.users a = some u →
      (u.gems < 5 + u.level → upgradeF a now s = (.error "not_enough_gems", s)) ∧
      (5 + u.level ≤ u.gems →
        ∃ u2, (upgradeF a now s).1 = .ok u2 ∧ (upgradeF a now s).2.users a = some u2 ∧
          u2.gems = u.gems - (5 + u.level) ∧ u2.level = u.level + 1 ∧
          u2.rate = u.rate + 1)) := by
  constructor
  · intro users a u hu
    constructor
    · intro hlt
      simp [upgradeK, hu, ite_zero_self, hlt]
    · intro hge hrate
      have hr0 : ¬ u.rate = 0 := by omega
      refine ⟨UserK.mk u.coins (u.gems - (5 + u.level)) (u.rate + 1) (u.level + 1)
        u.last_active_ms u.active u.kahel_offchain, ?_, ?_, rfl, rfl, rfl⟩
      · simp [upgradeK, hu, ite_zero_self, not_lt.2 hge, hr0]
      · simp [upgradeK, hu, ite_zero_self, not_lt.2 hge, hr0]
  · intro s a now u hu
    have hens := ensureUserF_of_mem now s a u hu
    have hacc := accrue_preserves now u
    constructor
    · intro hlt
      simp [upgradeF, hens, hacc.1, hacc.2.1, hlt]
    · intro hge
      refine ⟨UserF.mk (accrueCoinsForUser now u).coins (u.gems - (5 + u.level))
        (u.rate + 1) (u.level + 1) (accrueCoinsForUser now u).last_tick
        (accrueCoinsForUser now u).kahel_in_game
        (accrueCoinsForUser now u).last_claim_day, ?_, ?_, rfl, rfl, rfl⟩
      · simp [upgradeF, hens, hacc.1, hacc.2.1, hacc.2.2.1, not_lt.2 hge]
      · simp [upgradeF, hens, hacc.1, hacc.2.1, hacc.2.2.1, not_lt.2 hge]

def c10UsersK : String → Option UserK :=
  fun x => if x = "a" then some ⟨0, 9, 1, 2, none, false, 0⟩ else none

def c10PoorUsersK : String → Option UserK :=
  fun x => if x = "b" then some ⟨0, 3, 1, 0, none, false, 0⟩ else none

def c10FState : FaucetState :=
  { users := fun x => if x = "a" then some ⟨0, 9, 1, 2, 0, 0, 0⟩ else none,
    burns := [],
    claims := [] }

/-- Witness for `c10_upgrade_cost`: with 9 gems at level 2 (cost 7) the
upgrade succeeds and leaves 2 gems, level 3, rate 2; with 3 gems at level 0
(cost 5) it fails and changes nothing. -/
theorem c10_upgrade_cost_witness :
    (∃ u2, (upgradeK "a" c10UsersK).1 = .ok u2 ∧ (upgradeK "a" c10UsersK).2 "a" = some u2 ∧
      u2.gems = 9 - (5 + 2) ∧ u2.level = 2 + 1 ∧ u2.rate = 1 + 1) ∧
    upgradeK "b" c10PoorUsersK = (.error "insufficient_gems", c10PoorUsersK) ∧
    (∃ u2, (upgradeF "a" 77 c10FState).1 = .ok u2 ∧
      (upgradeF "a" 77 c10FState).2.users "a" = some u2 ∧
      u2.gems = 9 - (5 + 2) ∧ u2.level = 2 + 1 ∧ u2.rate = 1 + 1) :=
  ⟨(c10_upgrade_cost.1 c10UsersK "a" ⟨0, 9, 1, 2, none, false, 0⟩
      (by simp [c10UsersK])).2 (by norm_num) (by norm_num),
    (c10_upgrade_cost.1 c10PoorUsersK "b" ⟨0, 3, 1, 0, none, false, 0⟩
      (by simp [c10PoorUsersK])).1 (by norm_num),
    (c10_upgrade_cost.2 c10FState "a" 77 ⟨0, 9, 1, 2, 0, 0, 0⟩
      (by simp [c10FState])).2 (by norm_num)⟩

end Rupdud
